import Mathlib

/-!
Verification of the zugzwang video-pipeline models against their source.

The Python source is embedded shallowly:

* `hashlib.sha256(...).hexdigest()` is embedded as a full executable
  SHA-256 over byte lists (`sha256hex`), with hex output, so that the
  content-addressed cache keys of the pipeline can be computed exactly.
* mutable `chess.Board` push/pop state is embedded as explicit state
  passing over a `Board` structure carrying the position notation and the
  move stack; the external move-application rule is a function parameter.
* the filesystem cache is a list of existing paths, threaded explicitly.
* fallible code (`StyledArrow.pgn`, which can raise `ZeroDivisionError`
  or `IndexError`) returns `Except`.
-/

namespace Zugzwang

/-! ## SHA-256 (embedding of `hashlib.sha256(...).hexdigest()`) -/

/-- Truncation to a 32-bit word. -/
def w32 (x : Nat) : Nat := x % 4294967296

/-- Right rotation of a 32-bit word by `n` places. -/
def rotr (n x : Nat) : Nat := w32 ((x >>> n) ||| (x <<< (32 - n)))

/-- The 64 SHA-256 round constants. -/
def shaK : List Nat :=
  [1116352408, 1899447441, 3049323471, 3921009573, 961987163,
   1508970993, 2453635748, 2870763221, 3624381080, 310598401,
   607225278, 1426881987, 1925078388, 2162078206, 2614888103,
   3248222580, 3835390401, 4022224774, 264347078, 604807628,
   770255983, 1249150122, 1555081692, 1996064986, 2554220882,
   2821834349, 2952996808, 3210313671, 3336571891, 3584528711,
   113926993, 338241895, 666307205, 773529912, 1294757372,
   1396182291, 1695183700, 1986661051, 2177026350, 2456956037,
   2730485921, 2820302411, 3259730800, 3345764771, 3516065817,
   3600352804, 4094571909, 275423344, 430227734, 506948616,
   659060556, 883997877, 958139571, 1322822218, 1537002063,
   1747873779, 1955562222, 2024104815, 2227730452, 2361852424,
   2428436474, 2756734187, 3204031479, 3329325298]

/-- The initial SHA-256 hash state. -/
def shaH0 : List Nat :=
  [0x6a09e667, 0xbb67ae85, 0x3c6ef372, 0xa54ff53a, 0x510e527f, 0x9b05688c, 0x1f83d9ab, 0x5be0cd19]

/-- Big-endian byte expansion of `n` into `k` bytes. -/
def bytesBE : Nat → Nat → List Nat
  | 0, _ => []
  | k + 1, n => bytesBE k (n / 256) ++ [n % 256]

/-- SHA-256 padding: append `0x80`, zero bytes to 56 mod 64, then the
bit length as an 8-byte big-endian integer. -/
def shaPad (msg : List Nat) : List Nat :=
  let z := (119 - msg.length % 64) % 64
  msg ++ 0x80 :: List.replicate z 0 ++ bytesBE 8 (msg.length * 8)

/-- Group a byte list into big-endian 32-bit words, four bytes at a time. -/
def toWords : List Nat → List Nat
  | a :: b :: c :: d :: rest => (((a * 256 + b) * 256 + c) * 256 + d) :: toWords rest
  | _ => []

/-- Small sigma-0 message-schedule function. -/
def ssig0 (x : Nat) : Nat := (rotr 7 x) ^^^ (rotr 18 x) ^^^ (x >>> 3)

/-- Small sigma-1 message-schedule function. -/
def ssig1 (x : Nat) : Nat := (rotr 17 x) ^^^ (rotr 19 x) ^^^ (x >>> 10)

/-- Extend the 16 block words by `n` further schedule words. -/
def schedule : List Nat → Nat → List Nat
  | w, 0 => w
  | w, n + 1 =>
    let t := w.length
    let x := w32 (ssig1 (w.getD (t - 2) 0) + w.getD (t - 7) 0 + ssig0 (w.getD (t - 15) 0) +
      w.getD (t - 16) 0)
    schedule (w ++ [x]) n

/-- One SHA-256 round, acting on the eight-word working state. -/
def compressStep (st : List Nat) (kw : Nat × Nat) : List Nat :=
  match st with
  | [a, b, c, d, e, f, g, h] =>
    let S1 := (rotr 6 e) ^^^ (rotr 11 e) ^^^ (rotr 25 e)
    let ch := (e &&& f) ^^^ ((e ^^^ 0xffffffff) &&& g)
    let t1 := w32 (h + S1 + ch + kw.1 + kw.2)
    let S0 := (rotr 2 a) ^^^ (rotr 13 a) ^^^ (rotr 22 a)
    let mj := (a &&& b) ^^^ (a &&& c) ^^^ (b &&& c)
    let t2 := w32 (S0 + mj)
    [w32 (t1 + t2), a, b, c, w32 (d + t1), e, f, g]
  | _ => st

/-- Compress one 64-byte block into the running hash state. -/
def compressBlock (h : List Nat) (block : List Nat) : List Nat :=
  let w := schedule (toWords block) 48
  let st := (shaK.zip w).foldl compressStep h
  (h.zip st).map (fun p => w32 (p.1 + p.2))

/-- Split a byte list into 64-byte blocks (fuelled; the fuel is the
length of the list, which bounds the number of blocks). -/
def blocksAux : Nat → List Nat → List (List Nat)
  | 0, _ => []
  | _, [] => []
  | fuel + 1, l => l.take 64 :: blocksAux fuel (l.drop 64)

/-- Split a byte list into 64-byte blocks. -/
def blocks (l : List Nat) : List (List Nat) := blocksAux l.length l

/-- SHA-256 digest of a byte list, as eight 32-bit words. -/
def sha256Words (msg : List Nat) : List Nat :=
  (blocks (shaPad msg)).foldl compressBlock shaH0

/-- Lowercase hexadecimal digit. -/
def hexChar (n : Nat) : Char := if n < 10 then Char.ofNat (48 + n) else Char.ofNat (87 + n)

/-- A 32-bit word as eight lowercase hex characters. -/
def wordHex (n : Nat) : String :=
  String.mk ((List.range 8).map fun i => hexChar ((n >>> (4 * (7 - i))) &&& 15))

/-- SHA-256 hex digest of a byte list (embedding of `hexdigest()`). -/
def sha256hex (msg : List Nat) : String := String.join ((sha256Words msg).map wordHex)

/-- UTF-8 bytes of a string.  All strings hashed by this repository are
ASCII, for which the encoding is the code point itself. -/
def strBytes (s : String) : List Nat := s.data.map Char.toNat

/-- Embedding of `hashlib.sha256(s.encode()).hexdigest()`. -/
def sha256str (s : String) : String := sha256hex (strBytes s)

example : sha256str "abc" =
    "ba7816bf8f01cfea414140de5dae2223b00361a396177a9cb410ff61f20015ad" := by decide
example : sha256str "" =
    "e3b0c44298fc1c149afbf4c8996fb92427ae41e4649b934ca495991b7852b855" := by decide

/-! ## Python string primitives used by the source

`Narration.__init__` normalizes its text with
`inspect.cleandoc(text.rstrip().lstrip())`; these definitions embed the
CPython behaviour of `str.strip`, `str.expandtabs` and `inspect.cleandoc`. -/

/-- Characters treated as whitespace by Python `str.strip()` (ASCII part). -/
def pyIsSpace (c : Char) : Bool :=
  c = ' ' || c = '\t' || c = '\n' || c = '\x0d' || c = '\x0b' || c = '\x0c'

/-- Embedding of `s.rstrip().lstrip()` (equivalently `s.strip()`). -/
def pyStrip (s : String) : String :=
  String.mk (((s.data.reverse.dropWhile pyIsSpace).reverse).dropWhile pyIsSpace)

/-- Embedding of `str.expandtabs()` with the default tab size 8: each tab
advances to the next multiple-of-8 column; newlines reset the column. -/
def expandTabs : List Char → Nat → List Char
  | [], _ => []
  | c :: rest, col =>
    if c = '\t' then
      let n := 8 - col % 8
      List.replicate n ' ' ++ expandTabs rest (col + n)
    else if c = '\n' || c = '\x0d' then c :: expandTabs rest 0
    else c :: expandTabs rest (col + 1)

/-- Minimum indentation of the non-blank lines, `none` standing for the
`sys.maxsize` sentinel of `inspect.cleandoc`. -/
def marginOf (lines : List (List Char)) : Option Nat :=
  lines.foldl
    (fun m line =>
      let content := (line.dropWhile pyIsSpace).length
      if content = 0 then m
      else
        let indent := line.length - content
        match m with
        | none => some indent
        | some k => some (min k indent))
    none

/-- Drop trailing blank lines (the first `while` loop of `cleandoc`). -/
def dropTrailingEmpty (ls : List (List Char)) : List (List Char) :=
  (ls.reverse.dropWhile List.isEmpty).reverse

/-- Embedding of `str.split(chr(10))`: split at every newline, keeping
empty pieces, the empty string yielding one empty line. -/
def splitLines : List Char → List (List Char)
  | [] => [[]]
  | c :: rest =>
    let r := splitLines rest
    if c = '\n' then [] :: r
    else
      match r with
      | [] => [[c]]
      | l :: ls => (c :: l) :: ls

/-- Embedding of `inspect.cleandoc`: expand tabs, split into lines, strip
the first line, remove the common margin of the later lines, and drop
blank lines at either end. -/
def cleandoc (doc : String) : String :=
  let lines := splitLines (expandTabs doc.data 0)
  let lines :=
    match lines with
    | [] => []
    | l0 :: rest =>
      (l0.dropWhile pyIsSpace) ::
        (match marginOf rest with
         | none => rest
         | some k => rest.map (List.drop k))
  let lines := (dropTrailingEmpty lines).dropWhile List.isEmpty
  String.mk (List.intercalate ['\n'] lines)

/-- Text normalization performed by the `Narration` constructor:
`inspect.cleandoc(text.rstrip().lstrip())`. -/
def normalizeText (t : String) : String := cleandoc (pyStrip t)

example : normalizeText "  hello \n   world\n" = "hello \nworld" := by decide
example : normalizeText "test" = "test" := by decide
example : normalizeText "\tx\n\t\ty" = "x\ny" := by decide

/-! ## `StyledArrow` (src/zugzwang/arrow.py)

`StyledArrow` subclasses the `chess.svg.Arrow` dataclass, so it carries a
tail square, a head square and a color string, compares with `__lt__` on
`value = head + tail`, and inherits the dataclass `__repr__`. -/

/-- Embedding of `StyledArrow` (a `chess.svg.Arrow` dataclass with the
fields `tail`, `head`, `color`). -/
structure StyledArrow where
  tail : Nat
  head : Nat
  color : String := "green"
deriving DecidableEq

/-- The `value` property: `self.head + self.tail`, the sort key of
`StyledArrow.__lt__`. -/
def StyledArrow.value (a : StyledArrow) : Nat := a.head + a.tail

/-- Embedding of Python `sorted` on `StyledArrow` lists.  `sorted` is the
unique stable sort ascending under `__lt__` (which compares `value`), and
insertion sort ordered by the reflexive relation `value ≤ value` computes
exactly that list: an element is inserted before the first element whose
key is not smaller, so equal keys keep their input order. -/
def pySorted (l : List StyledArrow) : List StyledArrow :=
  l.insertionSort (fun a b => a.value ≤ b.value)

/-- Dataclass `repr` of a `StyledArrow` as interpolated by the f-strings
of `Scene.video_hash`, e.g. `StyledArrow(tail=0, head=2, color=\x27green\x27)`.
(The palette colors contain no characters that Python `repr` escapes.) -/
def arrowRepr (a : StyledArrow) : String :=
  "StyledArrow(tail=" ++ toString a.tail ++ ", head=" ++ toString a.head ++
    ", color=\x27" ++ a.color ++ "\x27)"

/-- Embedding of Python `sep.join(parts)`. -/
def pyJoin (sep : String) : List String → String
  | [] => ""
  | [s] => s
  | s :: rest => s ++ sep ++ pyJoin sep rest

/-- Python `str` of a list of arrows: brackets around the comma-joined
element `repr`s. -/
def arrowListRepr (l : List StyledArrow) : String :=
  "[" ++ pyJoin ", " (l.map arrowRepr) ++ "]"

/-- Errors `StyledArrow.pgn` can raise: `ZeroDivisionError` from the
intermediate-square computation, `IndexError` from `chess.SQUARE_NAMES`. -/
inductive PgnErr
  | divZero
  | idxErr
deriving DecidableEq

/-- Entry `i` of `chess.SQUARE_NAMES` for `0 ≤ i < 64`: file letter then
rank digit, square index 0 being a1. -/
def squareName (i : Nat) : String :=
  String.mk [Char.ofNat (97 + i % 8), Char.ofNat (49 + i / 8)]

example : squareName 0 = "a1" := by decide
example : squareName 10 = "c2" := by decide
example : squareName 63 = "h8" := by decide

/-- Python list indexing into the 64-entry `chess.SQUARE_NAMES`: negative
indices from -64 to -1 wrap to the end of the list, anything outside
[-64, 63] raises `IndexError`. -/
def pyIndexSquare (i : Int) : Except PgnErr String :=
  if 0 ≤ i ∧ i < 64 then .ok (squareName i.toNat)
  else if -64 ≤ i ∧ i < 0 then .ok (squareName (i + 64).toNat)
  else .error .idxErr

/-- The color letter chosen by `_pgn_segment`: colors other than red,
yellow and blue default to green. -/
def pgnColor (a : StyledArrow) : String :=
  if a.color = "red" then "R"
  else if a.color = "yellow" then "Y"
  else if a.color = "blue" then "B"
  else "G"

/-- Embedding of `StyledArrow._pgn_segment(start, end)`. -/
def pgnSegment (a : StyledArrow) (s e : Int) : Except PgnErr String := do
  let sn ← pyIndexSquare s
  let en ← pyIndexSquare e
  .ok (pgnColor a ++ sn ++ en)

/-- Embedding of `StyledArrow.pgn()`.  `divmod(square, 8)` yields the
rank (row) and file (column); when neither axis differs by exactly 2 in
absolute value a single segment is produced, otherwise the knight branch
computes an intermediate square with two floor divisions by the absolute
axis deltas (raising `ZeroDivisionError` when a delta is zero) and emits
two concatenated segments. -/
def StyledArrow.pgn (a : StyledArrow) : Except PgnErr String :=
  let tailRow : Int := (a.tail / 8 : Nat)
  let tailCol : Int := (a.tail % 8 : Nat)
  let headRow : Int := (a.head / 8 : Nat)
  let headCol : Int := (a.head % 8 : Nat)
  if (tailRow - headRow).natAbs ≠ 2 ∧ (tailCol - headCol).natAbs ≠ 2 then
    pgnSegment a a.tail a.head
  else if headRow - tailRow = 0 then .error .divZero
  else
    let interRow : Int := tailRow + Int.fdiv (2 * (headRow - tailRow)) ((headRow - tailRow).natAbs)
    if headCol - tailCol = 0 then .error .divZero
    else
      let interCol : Int := tailCol + Int.fdiv (2 * (headCol - tailCol)) ((headCol - tailCol).natAbs)
      let inter : Int := interRow * 8 + interCol
      do
        let s1 ← pgnSegment a a.tail inter
        let s2 ← pgnSegment a inter a.head
        .ok (s1 ++ s2)

example : StyledArrow.pgn { tail := 0, head := 10 } = .ok "Ga1c3Gc3c2" := rfl
example : StyledArrow.pgn { tail := 0, head := 18 } = .ok "Ga1c3Gc3c3" := rfl
example : StyledArrow.pgn { tail := 0, head := 2 } = .error .divZero := rfl
example : StyledArrow.pgn { tail := 0, head := 16 } = .error .divZero := rfl
example : StyledArrow.pgn { tail := 48, head := 58 } = .error .idxErr := rfl
example : StyledArrow.pgn { tail := 46, head := 63 } = .error .idxErr := rfl
example : StyledArrow.pgn { tail := 8, head := 2 } = .ok "Ga2c8Gc8c1" := rfl
example : StyledArrow.pgn { tail := 17, head := 0 } = .ok "Gb3h8Gh8a1" := rfl
example : StyledArrow.pgn { tail := 1, head := 16, color := "red" } = .ok "Rb1h2Rh2a3" := rfl

/-! ## Board state and scoped move application (src/zugzwang/models/position.py)

The chess engine is an external collaborator; `board.push(move)` saves the
current position on the move stack and applies the move by an external
rule, `board.pop()` restores the saved position.  The board state is
passed explicitly; the move-application rule is a function parameter. -/

/-- A mutable `chess.Board` as a value: current position notation plus the
move stack, each entry carrying the position saved when it was pushed. -/
structure Board where
  pos : String
  stack : List (String × String) := []
deriving DecidableEq

/-- The position notation of the board (`board.fen()`). -/
def Board.fen (b : Board) : String := b.pos

/-- Embedding of `board.push(move)`: save the current position on the
stack and apply the external move rule. -/
def Board.push (applyMove : String → String → String) (b : Board) (m : String) : Board :=
  { pos := applyMove b.pos m, stack := (m, b.pos) :: b.stack }

/-- Embedding of `board.pop()`: restore the last saved position, failing
(an `IndexError` in Python) on an empty move stack. -/
def Board.pop (b : Board) : Option Board :=
  match b.stack with
  | [] => none
  | (_, p) :: rest => some { pos := p, stack := rest }

/-- Embedding of the `Position` dataclass: one shared board and one
pending move. -/
structure Position where
  board : Board
  move : String

/-- Embedding of `Position.__enter__`: push the move, yield the board. -/
def Position.enter (applyMove : String → String → String) (p : Position) : Board :=
  p.board.push applyMove p.move

/-- Embedding of `Position.__exit__`: pop one move from the board the
block left behind (the exception arguments are ignored by the source). -/
def Position.exitScope (b : Board) : Option Board := b.pop

/-- Embedding of the Python `with Position(board, move): body` statement.
The body receives the pushed board and returns the board state it leaves
behind together with `some e` when it raises; `__exit__` pops exactly one
move on both the normal and the raising path. -/
def withPosition {ε : Type} (applyMove : String → String → String) (b : Board) (m : String)
    (body : Board → Board × Option ε) : Option Board × Option ε :=
  let r := body (Board.push applyMove b m)
  (Position.exitScope r.1, r.2)

/-! ## The on-disk content cache -/

/-- The flat content-addressed file cache: the set of paths that exist. -/
structure FS where
  files : List String

/-- Embedding of `os.path.exists`. -/
def FS.hasFile (fs : FS) (p : String) : Bool := fs.files.contains p

/-- Record that a path has been written. -/
def FS.touch (fs : FS) (p : String) : FS := ⟨p :: fs.files⟩

/-! ## Narration (src/zugzwang/models/narration.py) -/

/-- Embedding of the `Narration` dataclass after construction. -/
structure Narration where
  text : String
  voice_id : String
deriving DecidableEq

/-- Embedding of `Narration.__init__`, which normalizes the text with
`inspect.cleandoc(text.rstrip().lstrip())`. -/
def mkNarration (text voice_id : String) : Narration :=
  { text := normalizeText text, voice_id := voice_id }

/-- The `audio_hash` property: SHA-256 hex digest of the stored text. -/
def Narration.audio_hash (n : Narration) : String := sha256str n.text

/-- The `audio_path` property:
`os.path.join("data", "narrations", voice_id, audio_hash + ".mp3")`. -/
def Narration.audio_path (n : Narration) : String :=
  "data/narrations/" ++ n.voice_id ++ "/" ++ n.audio_hash ++ ".mp3"

/-- Embedding of `Narration.generate()` at the caching boundary: if no
file exists at the derived path, the external synthesis collaborator is
invoked (writing the file); the loudness-normalized audio handle the
external media library then returns is not modelled.  The result is the
filesystem afterwards and the number of synthesis invocations made. -/
def Narration.generate (n : Narration) (fs : FS) : FS × Nat :=
  if fs.hasFile n.audio_path then (fs, 0) else (fs.touch n.audio_path, 1)

/-! ## Scene (src/zugzwang/models/scene.py) -/

/-- Embedding of the `Scene` dataclass. -/
structure Scene where
  name : String
  narration : Narration
  board : Board
  arrows : List StyledArrow
  orientation : Bool
  output_dir : String
  pause_duration : Rat := 1 / 4
deriving DecidableEq

/-- Embedding of `copy.deepcopy` on a board: in this value-level
embedding a deep copy is the value itself; what matters is that the
constructed `Scene` stores this value rather than a reference into the
shared store (see `Store` below). -/
def deepcopy (b : Board) : Board := b

/-- Embedding of `Scene.__init__`: the stored board is a deep copy of the
caller board (the `os.makedirs` call touches no cache path). -/
def mkScene (name : String) (narration : Narration) (board : Board) (arrows : List StyledArrow)
    (orientation : Bool) (output_dir : String) (pause_duration : Rat) : Scene :=
  { name := name, narration := narration, board := deepcopy board, arrows := arrows,
    orientation := orientation, output_dir := output_dir, pause_duration := pause_duration }

/-- The hash key interpolated by `Scene.video_hash`. -/
def sceneHashKey (narration : Narration) (fen : String) (arrows : List StyledArrow) : String :=
  narration.audio_hash ++ "-" ++ fen ++ "-" ++ arrowListRepr (pySorted arrows)

/-- The `Scene.video_hash` property: SHA-256 hex digest of the f-string
over (narration audio hash, board position notation, `sorted` arrows). -/
def Scene.video_hash (s : Scene) : String :=
  sha256str (sceneHashKey s.narration s.board.fen s.arrows)

/-- The `Scene.video_path` property. -/
def Scene.video_path (s : Scene) : String :=
  s.output_dir ++ "/" ++ s.video_hash ++ ".mp4"

/-! ## Puzzle (src/zugzwang/models/puzzle.py) -/

/-- Embedding of the `Puzzle` dataclass. -/
structure Puzzle where
  puzzleid : String
  fen : String
  rating : Int
  ratingdeviation : Int
  moves : List String
  themes : List String
deriving DecidableEq

/-- Embedding of the `Puzzle.difficulty` property. -/
def Puzzle.difficulty (p : Puzzle) : String :=
  if p.rating < 1200 then "easy"
  else if p.rating < 1800 then "medium"
  else if p.rating < 2400 then "hard"
  else if p.rating < 3000 then "master"
  else if p.rating < 4000 then "grandmaster"
  else "?"

/-! ## PuzzleVideo (src/zugzwang/models/video_template.py) -/

/-- Handle to an external media clip (dimensions only; the media content
lives in the external collaborator). -/
structure MediaClip where
  height : Nat := 0
  width : Nat := 0
deriving DecidableEq

/-- Embedding of the `PuzzleVideo` dataclass. -/
structure PuzzleVideo where
  output_dir : String
  title : String
  description : String
  tags : List String
  category : String
  puzzle : Puzzle
  voice_id : String
  background_video : MediaClip
  background_music : MediaClip
  scenes : List Scene

/-- The hash key interpolated by `PuzzleVideo.video_hash`:
`"-".join([scene.video_hash for scene in self.scenes])`. -/
def videoHashKey (v : PuzzleVideo) : String :=
  pyJoin "-" (v.scenes.map Scene.video_hash)

/-- The `PuzzleVideo.video_hash` property: SHA-256 hex digest of the
dash-joined scene hashes, in sequence order. -/
def PuzzleVideo.video_hash (v : PuzzleVideo) : String :=
  sha256str (videoHashKey v)

/-- The `PuzzleVideo.video_path` property. -/
def PuzzleVideo.video_path (v : PuzzleVideo) : String :=
  v.output_dir ++ "/" ++ v.video_hash ++ ".mp4"

/-- One invocation of the external publish collaborator
(`youtube_upload`), with the arguments the source passes. -/
structure UploadCall where
  path : String
  title : String
  description : String
  tags : List String
  category : String
  privacy_status : String
deriving DecidableEq

/-- Observable outcome of `PuzzleVideo.generate`: the filesystem after
the call, the publish invocations made, and whether the final artifact
was built during the call. -/
structure GenerateResult where
  fs : FS
  uploads : List UploadCall
  built : Bool

/-- Embedding of `PuzzleVideo.generate(upload)` at the cache/publish
boundary: first, if `upload` is requested and the artifact already
exists, the publish collaborator is invoked with visibility "public";
then, if the artifact does not exist, the whole pipeline runs and writes
the artifact plus the fixed-name convenience copy. -/
def PuzzleVideo.generate (v : PuzzleVideo) (fs : FS) (upload : Bool) : GenerateResult :=
  let uploads :=
    if upload && fs.hasFile v.video_path then
      [{ path := v.video_path, title := v.title, description := v.description,
         tags := v.tags, category := v.category, privacy_status := "public" }]
    else []
  if fs.hasFile v.video_path then
    { fs := fs, uploads := uploads, built := false }
  else
    { fs := (fs.touch v.video_path).touch (v.output_dir ++ "/final.mp4"),
      uploads := uploads, built := true }

/-! ## Annotation generator (src/zugzwang/annotations.py) -/

/-- Chess piece kinds. -/
inductive PieceType
  | pawn
  | knight
  | bishop
  | rook
  | queen
  | king
deriving DecidableEq, Fintype

/-- The python-chess integer piece type (`PAWN = 1` … `KING = 6`), the
sort key used by `show_attacks`. -/
def PieceType.num : PieceType → Nat
  | .pawn => 1
  | .knight => 2
  | .bishop => 3
  | .rook => 4
  | .queen => 5
  | .king => 6

/-- Conventional material value of a piece type (pawn 1, minor pieces 3,
rook 5, queen 9, the king dominating every other piece). -/
def PieceType.material : PieceType → Nat
  | .pawn => 1
  | .knight => 3
  | .bishop => 3
  | .rook => 5
  | .queen => 9
  | .king => 200

/-- A piece as returned by `board.piece_at`. -/
structure Piece where
  piece_type : PieceType
  white : Bool
deriving DecidableEq

/-- Interface of the chess collaborator used by the annotation
generator: square occupancy and the attack set of a square (a list, in
the iteration order of the library square-set). -/
structure AnnBoard where
  pieceAt : Nat → Option Piece
  attacksFrom : Nat → List Nat

/-- The integer sort key `board.piece_at(attacker).piece_type` of
`show_attacks` (defaulting to 0 on an empty square, which the preceding
filter makes unreachable). -/
def typeKey (board : AnnBoard) (sq : Nat) : Nat :=
  ((board.pieceAt sq).map fun p => p.piece_type.num).getD 0

/-- Material value of the piece occupying a square (0 when empty). -/
def materialAt (board : AnnBoard) (sq : Nat) : Nat :=
  ((board.pieceAt sq).map fun p => p.piece_type.material).getD 0

/-- Embedding of `show_attacks(board, square, max_arrows=3)`: keep the
attacked squares that are occupied, sort them by piece type descending
(Python `sorted` with `reverse=True` is the stable descending sort, which
insertion sort under the reflexive flipped key order computes), and emit
green arrows from `square` to the first `min(max_arrows, len)` of them. -/
def show_attacks (board : AnnBoard) (square : Nat) (max_arrows : Nat) : List StyledArrow :=
  let occupied := (board.attacksFrom square).filter fun a => (board.pieceAt a).isSome
  let ranked := occupied.insertionSort fun x y => typeKey board y ≤ typeKey board x
  let m := min max_arrows ranked.length
  (ranked.take m).map fun a => { tail := square, head := a, color := "green" }

/-! ## A store of shared mutable boards

Python passes `chess.Board` objects by reference and mutates them in
place; `Scene.__init__` deep-copies the board precisely to decouple the
scene from that mutation.  The store makes the aliasing explicit: an
object identity is an index, in-place mutation updates the indexed
entry, and a deep copy captures the current value. -/

/-- A heap of live board objects, indexed by identity. -/
abbrev Store := List Board

/-- Dereference a board object. -/
def Store.getB (st : Store) (r : Nat) : Board := st.getD r { pos := "" }

/-- Overwrite a board object in place. -/
def Store.setB (st : Store) (r : Nat) (b : Board) : Store := st.set r b

/-- In-place `board.push(move)` on the shared board `r` (what
`Position.__enter__` performs on scope entry). -/
def Store.pushAt (applyMove : String → String → String) (st : Store) (r : Nat) (m : String) :
    Store :=
  st.setB r ((st.getB r).push applyMove m)

/-- In-place `board.pop()` on the shared board `r` (what
`Position.__exit__` performs on scope exit). -/
def Store.popAt (st : Store) (r : Nat) : Store :=
  match (st.getB r).pop with
  | some b => st.setB r b
  | none => st

/-- Constructing a `Scene` from the shared board `r`: `Scene.__init__`
deep-copies, so the scene captures the value the object holds now. -/
def sceneFromStore (st : Store) (r : Nat) (name : String) (narration : Narration)
    (arrows : List StyledArrow) (orientation : Bool) (output_dir : String) : Scene :=
  mkScene name narration (st.getB r) arrows orientation output_dir (1 / 4)

/-! ## Statement-level predicates -/

/-- An annotation is knight-shaped when its two squares are an L-shaped
knight offset apart: one axis differs by 1, the other by 2. -/
def KnightShaped (a : StyledArrow) : Prop :=
  (((a.tail / 8 : Nat) : Int) - ((a.head / 8 : Nat) : Int)).natAbs = 1
      ∧ (((a.tail % 8 : Nat) : Int) - ((a.head % 8 : Nat) : Int)).natAbs = 2
    ∨ (((a.tail / 8 : Nat) : Int) - ((a.head / 8 : Nat) : Int)).natAbs = 2
      ∧ (((a.tail % 8 : Nat) : Int) - ((a.head % 8 : Nat) : Int)).natAbs = 1

instance (a : StyledArrow) : Decidable (KnightShaped a) := by
  unfold KnightShaped; infer_instance

/-- The intermediate square index the knight branch of `pgn` computes:
`intermediate_row * 8 + intermediate_col` as a Python integer, which can
be negative or exceed 63. -/
def interSquare (a : StyledArrow) : Int :=
  let tailRow : Int := (a.tail / 8 : Nat)
  let tailCol : Int := (a.tail % 8 : Nat)
  let headRow : Int := (a.head / 8 : Nat)
  let headCol : Int := (a.head % 8 : Nat)
  (tailRow + Int.fdiv (2 * (headRow - tailRow)) ((headRow - tailRow).natAbs)) * 8
    + (tailCol + Int.fdiv (2 * (headCol - tailCol)) ((headCol - tailCol).natAbs))

example : interSquare { tail := 0, head := 10 } = 18 := by decide
example : interSquare { tail := 48, head := 58 } = 66 := by decide
example : interSquare { tail := 17, head := 0 } = -1 := by decide
example : interSquare { tail := 8, head := 2 } = -6 := by decide

/-! ## Concrete fixtures used by witness and counterexample theorems -/

/-- A concrete external move-application rule. -/
def wApply : String → String → String := fun p m => p ++ ":" ++ m

/-- A concrete board. -/
def wBoard : Board := { pos := "startpos" }

/-- A concrete scope body that leaves the board unchanged and raises. -/
def wBodyRaise : Board → Board × Option String := fun bb => (bb, some "boom")

/-- A concrete narration. -/
def narrTest : Narration := mkNarration "test" "v"

/-- A concrete position notation string. -/
def emptyFen : String := "8/8/8/8/8/8/8/8 w - - 0 1"

/-- Arrow a1 to c1 (green), of value 2. -/
def arrowA : StyledArrow := { tail := 0, head := 2, color := "green" }

/-- Arrow c1 to a1 (red), also of value 2: tied with `arrowA`. -/
def arrowB : StyledArrow := { tail := 2, head := 0, color := "red" }

/-- Arrow a2 to a3 (red), of value 24. -/
def arrowD : StyledArrow := { tail := 8, head := 16, color := "red" }

/-- Scene with the tied arrows in one order. -/
def sceneAB : Scene := mkScene "s" narrTest { pos := emptyFen } [arrowA, arrowB] true "out" (1 / 4)

/-- Scene with the tied arrows in the other order. -/
def sceneBA : Scene := mkScene "s" narrTest { pos := emptyFen } [arrowB, arrowA] true "out" (1 / 4)

/-- A third scene with a single arrow. -/
def sceneD : Scene := mkScene "s" narrTest { pos := emptyFen } [arrowD] true "out" (1 / 4)

/-- A concrete puzzle at a given rating. -/
def pzWith (r : Int) : Puzzle :=
  { puzzleid := "id", fen := "f", rating := r, ratingdeviation := 0, moves := [], themes := [] }

/-- A concrete puzzle video over the given scenes. -/
def mkPV (scenes : List Scene) : PuzzleVideo :=
  { output_dir := "out", title := "t", description := "d", tags := [], category := "c",
    puzzle := pzWith 1500, voice_id := "v", background_video := {}, background_music := {},
    scenes := scenes }

/-- Puzzle video with one scene. -/
def pvOne : PuzzleVideo := mkPV [sceneAB]

/-- Puzzle video with a second scene appended. -/
def pvTwo : PuzzleVideo := mkPV [sceneAB, sceneD]

/-- Puzzle video with the two scenes in swapped order. -/
def pvSwap : PuzzleVideo := mkPV [sceneD, sceneAB]

/-- A concrete board interface: square 0 attacks squares 3 (pawn),
1 (queen) and 2 (rook), three occupied squares of distinct material
value. -/
def wAnnBoard : AnnBoard :=
  { pieceAt := fun s =>
      if s = 1 then some { piece_type := .queen, white := false }
      else if s = 2 then some { piece_type := .rook, white := false }
      else if s = 3 then some { piece_type := .pawn, white := false }
      else none,
    attacksFrom := fun s => if s = 0 then [3, 1, 2] else [] }

/-- A concrete one-board store. -/
def wStore : Store := [{ pos := "fenA" }]

/-- Knight-shaped arrow a1 to c2. -/
def arrKnight : StyledArrow := { tail := 0, head := 10, color := "green" }

/-- Diagonal one-step arrow a1 to b2 (neither axis delta is 2). -/
def arrSingle : StyledArrow := { tail := 0, head := 9, color := "green" }

/-! ## C5: the difficulty step function -/

/-- C5 counterexample: the claim maps rating 2399 to "medium" and the
tier at or above 4000 to "unknown", but `Puzzle.difficulty` returns
"hard" at 2399 (2399 is at least 1800 and below 2400) and the string "?"
at 4000. -/
theorem difficulty_claim_cex :
    (pzWith 2399).difficulty = "hard" ∧ (pzWith 2399).difficulty ≠ "medium"
    ∧ (pzWith 4000).difficulty = "?" ∧ (pzWith 4000).difficulty ≠ "unknown" :=
  ⟨rfl, by decide, rfl, by decide⟩

/-- C5 (amended): `Puzzle.difficulty` is the step function of the rating
with boundaries 1200, 1800, 2400, 3000, 4000, each inclusive on the
higher tier, the top tier being the string "?". -/
theorem difficulty_step_tiers (p : Puzzle) :
    (p.rating < 1200 → p.difficulty = "easy")
    ∧ (1200 ≤ p.rating → p.rating < 1800 → p.difficulty = "medium")
    ∧ (1800 ≤ p.rating → p.rating < 2400 → p.difficulty = "hard")
    ∧ (2400 ≤ p.rating → p.rating < 3000 → p.difficulty = "master")
    ∧ (3000 ≤ p.rating → p.rating < 4000 → p.difficulty = "grandmaster")
    ∧ (4000 ≤ p.rating → p.difficulty = "?") := by
  unfold Puzzle.difficulty
  refine ⟨?_, ?_, ?_, ?_, ?_, ?_⟩ <;> intros <;> split_ifs <;> first | rfl | (exfalso; omega)

/-- C5 witness: the boundary ratings named by the claim, evaluated. -/
theorem difficulty_step_tiers_witness :
    (pzWith 1199).difficulty = "easy" ∧ (pzWith 1200).difficulty = "medium"
      ∧ (pzWith 1799).difficulty = "medium" ∧ (pzWith 4000).difficulty = "?" :=
  ⟨(difficulty_step_tiers (pzWith 1199)).1 (by decide),
   (difficulty_step_tiers (pzWith 1200)).2.1 (by decide) (by decide),
   (difficulty_step_tiers (pzWith 1799)).2.1 (by decide) (by decide),
   (difficulty_step_tiers (pzWith 4000)).2.2.2.2.2 (by decide)⟩

/-! ## C10: division by zero in `pgn` -/

/-- C10: for any arrow whose squares lie on the same rank two files
apart, or on the same file two ranks apart, the knight branch of `pgn`
is taken and the intermediate-square computation divides by the zero
delta of the unchanged axis, so `pgn` raises `ZeroDivisionError`. -/
theorem pgn_rank_file_two_div_zero (a : StyledArrow)
    (h : (a.tail / 8 = a.head / 8 ∧ (a.tail % 8 + 2 = a.head % 8 ∨ a.head % 8 + 2 = a.tail % 8))
      ∨ (a.tail % 8 = a.head % 8 ∧ (a.tail / 8 + 2 = a.head / 8 ∨ a.head / 8 + 2 = a.tail / 8))) :
    a.pgn = .error .divZero := by
  simp only [StyledArrow.pgn]
  split_ifs <;> first | rfl | (exfalso; omega)

/-- C10 witness: the arrow a1 to c1 raises `ZeroDivisionError`. -/
theorem pgn_rank_file_two_div_zero_witness :
    StyledArrow.pgn { tail := 0, head := 2, color := "green" } = .error .divZero :=
  pgn_rank_file_two_div_zero { tail := 0, head := 2, color := "green" } (by decide)

/-! ## C2: scoped move application -/

/-- C2: entering a `Position` scope pushes the move and exiting pops
exactly one move — on the normal path and on the raising path alike —
restoring the board, and in particular its position notation, to the
pre-entry value (provided the body leaves the board state as it found
it, the documented stack discipline). -/
theorem position_scope_restores_fen {ε : Type} (applyMove : String → String → String)
    (b : Board) (m : String) (body : Board → Board × Option ε)
    (hbody : (body (Board.push applyMove b m)).1 = Board.push applyMove b m) :
    Position.exitScope (Position.enter applyMove { board := b, move := m }) = some b
    ∧ (withPosition applyMove b m body).1 = some b
    ∧ ((withPosition applyMove b m body).1.map Board.fen) = some b.fen
    ∧ (withPosition applyMove b m body).2 = (body (Board.push applyMove b m)).2 := by
  have h1 : (withPosition applyMove b m body).1 = some b := by
    show Position.exitScope (body (Board.push applyMove b m)).1 = some b
    rw [hbody]
    rfl
  exact ⟨rfl, h1, by rw [h1]; rfl, rfl⟩

/-- C2 witness: a concrete board and move, with a body that raises. -/
theorem position_scope_restores_fen_witness :
    (withPosition wApply wBoard "e2e4" wBodyRaise).1 = some wBoard
      ∧ (withPosition wApply wBoard "e2e4" wBodyRaise).2 = some "boom" :=
  ⟨(position_scope_restores_fen wApply wBoard "e2e4" wBodyRaise rfl).2.1,
   ((position_scope_restores_fen wApply wBoard "e2e4" wBodyRaise rfl).2.2.2).trans rfl⟩

/-! ## C3: narration cache path and single synthesis -/

/-- C3: the narration cache path is the pure function of the voice
identity and the digest of the normalized text; one `generate()` call
invokes the synthesis collaborator at most once, and a second call with
the same narration invokes it zero times. -/
theorem narration_cache_path_deterministic (t v : String) (fs : FS) :
    (mkNarration t v).audio_path
        = "data/narrations/" ++ v ++ "/" ++ sha256str (normalizeText t) ++ ".mp3"
    ∧ (mkNarration t v).audio_path = (mkNarration t v).audio_path
    ∧ ((mkNarration t v).generate fs).2 ≤ 1
    ∧ ((mkNarration t v).generate ((mkNarration t v).generate fs).1).2 = 0 := by
  refine ⟨rfl, rfl, ?_, ?_⟩
  · unfold Narration.generate; split_ifs <;> simp
  · by_cases h : (mkNarration t v).audio_path ∈ fs.files
    · simp [Narration.generate, FS.hasFile, h]
    · simp [Narration.generate, FS.hasFile, FS.touch, h]

/-! ## C8: publish gating in `PuzzleVideo.generate` -/

/-- C8: the publish collaborator is invoked exactly when `upload` is
requested and the artifact already exists at call time; every invocation
targets the hash-derived path with visibility "public"; and when
`upload` is requested but the artifact is absent, the video is built
without any publish invocation. -/
theorem generate_upload_gating (v : PuzzleVideo) (fs : FS) (upload : Bool) :
    ((v.generate fs upload).uploads ≠ [] ↔ upload = true ∧ fs.hasFile v.video_path = true)
    ∧ (∀ u ∈ (v.generate fs upload).uploads,
        u.privacy_status = "public" ∧ u.path = v.video_path ∧ u.title = v.title)
    ∧ (upload = true → fs.hasFile v.video_path = false →
        (v.generate fs upload).built = true ∧ (v.generate fs upload).uploads = []) := by
  cases upload <;> cases h : fs.hasFile v.video_path <;>
    simp [PuzzleVideo.generate, h]

/-- C8 witness: with an empty cache and `upload` requested, the video is
built and nothing is published. -/
theorem generate_upload_gating_witness :
    (pvOne.generate { files := [] } true).built = true
      ∧ (pvOne.generate { files := [] } true).uploads = [] :=
  (generate_upload_gating pvOne { files := [] } true).2.2 rfl rfl

/-! ## C1: order dependence of the scene hash -/

/-- Helper: on arrow lists whose values are pairwise distinct, the
stable sort is determined by the multiset alone, so permuting the input
does not change it. -/
theorem pySorted_eq_of_perm (l1 l2 : List StyledArrow)
    (hdist : l1.Pairwise fun x y => x.value ≠ y.value) (hperm : l1.Perm l2) :
    pySorted l1 = pySorted l2 := by
  haveI : IsTotal StyledArrow fun a b => a.value ≤ b.value := ⟨fun a b => Nat.le_total _ _⟩
  haveI : IsTrans StyledArrow fun a b => a.value ≤ b.value := ⟨fun _ _ _ => Nat.le_trans⟩
  haveI : IsAntisymm StyledArrow fun a b => a.value < b.value :=
    ⟨fun _ _ hab hba => absurd hba (Nat.lt_asymm hab)⟩
  have p1 : (pySorted l1).Perm l1 := List.perm_insertionSort _ _
  have p2 : (pySorted l2).Perm l2 := List.perm_insertionSort _ _
  have q : (pySorted l1).Perm (pySorted l2) := p1.trans (hperm.trans p2.symm)
  have d1 : (pySorted l1).Pairwise fun x y => x.value ≠ y.value :=
    (p1.pairwise_iff fun h => Ne.symm h).mpr hdist
  have d2 : (pySorted l2).Pairwise fun x y => x.value ≠ y.value :=
    (q.pairwise_iff fun h => Ne.symm h).mp d1
  have s1 : (pySorted l1).Sorted fun a b => a.value ≤ b.value := List.sorted_insertionSort _ _
  have s2 : (pySorted l2).Sorted fun a b => a.value ≤ b.value := List.sorted_insertionSort _ _
  have s1s : (pySorted l1).Sorted fun a b => a.value < b.value :=
    (s1.and d1).imp fun h => Nat.lt_of_le_of_ne h.1 h.2
  have s2s : (pySorted l2).Sorted fun a b => a.value < b.value :=
    (s2.and d2).imp fun h => Nat.lt_of_le_of_ne h.1 h.2
  exact List.eq_of_perm_of_sorted q s1s s2s

set_option maxRecDepth 40000 in
/-- C1 counterexample: two scenes with the same narration and position
and with annotation lists that are permutations of each other — the two
arrows tie on the head+tail sum — hash differently, because the sort of
`Scene.video_hash` breaks ties by input order, not deterministically. -/
theorem scene_hash_depends_on_arrow_order :
    sceneAB.narration = sceneBA.narration ∧ sceneAB.board.fen = sceneBA.board.fen
    ∧ sceneAB.arrows.Perm sceneBA.arrows
    ∧ sceneAB.video_hash ≠ sceneBA.video_hash :=
  ⟨rfl, rfl, by decide, by decide⟩

/-- C1 (amended): when no two annotations share the same square-index
sum, the canonical sort is unique, so permuting the annotation list of a
scene with fixed narration and position leaves `video_hash` unchanged. -/
theorem scene_hash_perm_of_distinct_values
    (name1 name2 : String) (narration : Narration) (board : Board)
    (arrows1 arrows2 : List StyledArrow) (o1 o2 : Bool) (output_dir : String) (pd1 pd2 : Rat)
    (hdist : arrows1.Pairwise fun x y => x.value ≠ y.value)
    (hperm : arrows1.Perm arrows2) :
    (mkScene name1 narration board arrows1 o1 output_dir pd1).video_hash
      = (mkScene name2 narration board arrows2 o2 output_dir pd2).video_hash := by
  simp only [Scene.video_hash, sceneHashKey, mkScene, deepcopy]
  rw [pySorted_eq_of_perm arrows1 arrows2 hdist hperm]

/-- C1 witness: a permutation of two value-distinct arrows, hashed
equal by the amended theorem. -/
theorem scene_hash_perm_witness :
    (mkScene "s" narrTest { pos := emptyFen } [arrowA, arrowD] true "out" (1 / 4)).video_hash
      = (mkScene "s" narrTest { pos := emptyFen } [arrowD, arrowA] true "out"
          (1 / 4)).video_hash :=
  scene_hash_perm_of_distinct_values "s" "s" narrTest { pos := emptyFen } [arrowA, arrowD]
    [arrowD, arrowA] true true "out" (1 / 4) (1 / 4) (by decide) (by decide)

/-! ## C9: the scene deep copy decouples it from the shared board -/

/-- Helper: reading back an in-place overwrite of a live board. -/
theorem getB_setB (st : Store) (r : Nat) (b : Board) (hr : r < st.length) :
    (st.setB r b).getB r = b := by
  induction st generalizing r with
  | nil => simp at hr
  | cons x xs ih =>
    cases r with
    | zero => rfl
    | succ n => exact ih n (by simpa using hr)

/-- C9: construct a scene inside a `Position` scope (the shared board has
the move pushed), then let the scope exit pop the shared board: the
caller board reverts to its pre-entry position, while the scene keeps the
deep-copied pushed board, and its `video_hash` and `video_path` are the
ones derived from the position at construction time. -/
theorem scene_deepcopy_decouples (applyMove : String → String → String) (st : Store) (r : Nat)
    (m name : String) (narration : Narration) (arrows : List StyledArrow) (orientation : Bool)
    (output_dir : String) (hr : r < st.length) :
    ((Store.popAt (Store.pushAt applyMove st r m) r).getB r).fen = (st.getB r).fen
    ∧ (sceneFromStore (Store.pushAt applyMove st r m) r name narration arrows orientation
        output_dir).board = (Store.pushAt applyMove st r m).getB r
    ∧ (sceneFromStore (Store.pushAt applyMove st r m) r name narration arrows orientation
        output_dir).video_hash
      = sha256str (sceneHashKey narration ((Store.pushAt applyMove st r m).getB r).fen arrows)
    ∧ (sceneFromStore (Store.pushAt applyMove st r m) r name narration arrows orientation
        output_dir).video_path
      = output_dir ++ "/" ++ sha256str (sceneHashKey narration
          ((Store.pushAt applyMove st r m).getB r).fen arrows) ++ ".mp4" := by
  have h1 : (Store.pushAt applyMove st r m).getB r = (st.getB r).push applyMove m :=
    getB_setB st r _ hr
  have hlen : r < (Store.pushAt applyMove st r m).length := by
    simpa [Store.pushAt, Store.setB] using hr
  have hpop : Store.popAt (Store.pushAt applyMove st r m) r
      = (Store.pushAt applyMove st r m).setB r (st.getB r) := by
    unfold Store.popAt
    rw [h1]
    rfl
  refine ⟨?_, rfl, rfl, rfl⟩
  rw [hpop, getB_setB _ _ _ hlen]

/-- C9 witness: a concrete one-board store. -/
theorem scene_deepcopy_decouples_witness :
    ((Store.popAt (Store.pushAt wApply wStore 0 "m") 0).getB 0).fen = (wStore.getB 0).fen
    ∧ (sceneFromStore (Store.pushAt wApply wStore 0 "m") 0 "n" narrTest [] true "out").board
        = (Store.pushAt wApply wStore 0 "m").getB 0 :=
  ⟨(scene_deepcopy_decouples wApply wStore 0 "m" "n" narrTest [] true "out" (by decide)).1,
   (scene_deepcopy_decouples wApply wStore 0 "m" "n" narrTest [] true "out" (by decide)).2.1⟩

/-! ## C6: `show_attacks` -/

/-- Helper: every piece type has python-chess number at least 1. -/
theorem piecetype_num_pos : ∀ p : PieceType, 1 ≤ p.num := by decide

/-- Helper: material value is monotone in the python-chess type number,
so sorting by type descending also sorts by material value descending
(knight and bishop tie in material, which any order satisfies). -/
theorem piecetype_material_mono : ∀ p q : PieceType, p.num ≤ q.num → p.material ≤ q.material := by
  decide

/-- Helper: monotonicity of the material value in the sort key, for the
occupant of a square. -/
theorem material_key_mono (ox oy : Option Piece)
    (h : (oy.map fun p => p.piece_type.num).getD 0 ≤ (ox.map fun p => p.piece_type.num).getD 0) :
    (oy.map fun p => p.piece_type.material).getD 0
      ≤ (ox.map fun p => p.piece_type.material).getD 0 := by
  rcases ox with _ | px <;> rcases oy with _ | py <;> simp at h ⊢
  · have := piecetype_num_pos py.piece_type
    omega
  · exact piecetype_material_mono _ _ h

/-- Helper: monotonicity of the material value in the sort key, at the
level of board squares. -/
theorem materialAt_mono (b : AnnBoard) (x y : Nat) (h : typeKey b y ≤ typeKey b x) :
    materialAt b y ≤ materialAt b x :=
  material_key_mono (b.pieceAt x) (b.pieceAt y) h

/-- C6: every arrow produced by `show_attacks` runs from the queried
square to an occupied square; at most `limit` arrows are produced, and
exactly `min limit k` where `k` counts the occupied attacked squares;
they are ordered by the material value of the target descending; and on
a square attacking at least three occupied squares, `limit = 2` yields
exactly 2 arrows. -/
theorem show_attacks_spec (board : AnnBoard) (square limit : Nat) :
    (∀ a ∈ show_attacks board square limit,
        (board.pieceAt a.head).isSome = true ∧ a.tail = square ∧ a.color = "green")
    ∧ (show_attacks board square limit).length ≤ limit
    ∧ ((show_attacks board square limit).map fun a => materialAt board a.head).Pairwise
        (fun x y => y ≤ x)
    ∧ (3 ≤ ((board.attacksFrom square).filter fun t => (board.pieceAt t).isSome).length →
        (show_attacks board square 2).length = 2) := by
  haveI : IsTotal Nat fun x y => typeKey board y ≤ typeKey board x :=
    ⟨fun a b => Nat.le_total (typeKey board b) (typeKey board a)⟩
  haveI : IsTrans Nat fun x y => typeKey board y ≤ typeKey board x :=
    ⟨fun _ _ _ h1 h2 => Nat.le_trans h2 h1⟩
  have key : ∀ lim : Nat,
      (∀ a ∈ show_attacks board square lim,
          (board.pieceAt a.head).isSome = true ∧ a.tail = square ∧ a.color = "green")
      ∧ (show_attacks board square lim).length
          = min lim ((board.attacksFrom square).filter fun t => (board.pieceAt t).isSome).length
      ∧ ((show_attacks board square lim).map fun a => materialAt board a.head).Pairwise
          (fun x y => y ≤ x) := by
    intro lim
    have hperm : (((board.attacksFrom square).filter fun t =>
          (board.pieceAt t).isSome).insertionSort
            fun x y => typeKey board y ≤ typeKey board x).Perm
        ((board.attacksFrom square).filter fun t => (board.pieceAt t).isSome) :=
      List.perm_insertionSort _ _
    have hlen := hperm.length_eq
    have hsorted : (((board.attacksFrom square).filter fun t =>
          (board.pieceAt t).isSome).insertionSort
            fun x y => typeKey board y ≤ typeKey board x).Sorted
        fun x y => typeKey board y ≤ typeKey board x :=
      List.sorted_insertionSort _ _
    refine ⟨?_, ?_, ?_⟩
    · intro a ha
      simp only [show_attacks, List.mem_map] at ha
      obtain ⟨x, hx, rfl⟩ := ha
      refine ⟨?_, rfl, rfl⟩
      have hx2 := List.mem_of_mem_take hx
      have hx3 := hperm.subset hx2
      exact (List.mem_filter.mp hx3).2
    · simp only [show_attacks, List.length_map, List.length_take]
      omega
    · simp only [show_attacks, List.map_map]
      rw [List.pairwise_map]
      exact (List.Pairwise.sublist (List.take_sublist _ _) hsorted).imp
        fun hxy => materialAt_mono board _ _ hxy
  refine ⟨(key limit).1, ?_, (key limit).2.2, ?_⟩
  · have := (key limit).2.1
    omega
  · intro h3
    have := (key 2).2.1
    omega

/-- C6 witness: on the concrete board where square 0 attacks a pawn, a
queen and a rook, `limit = 2` yields exactly two arrows, ordered by
material value descending. -/
theorem show_attacks_spec_witness :
    (show_attacks wAnnBoard 0 2).length = 2
      ∧ ((show_attacks wAnnBoard 0 2).map fun a => materialAt wAnnBoard a.head).Pairwise
          (fun x y => y ≤ x) :=
  ⟨(show_attacks_spec wAnnBoard 0 2).2.2.2 (by decide),
   (show_attacks_spec wAnnBoard 0 2).2.2.1⟩

/-! ## C7: serialization shape of `pgn` -/

/-- Helper: indexing the square-name list yields a name or IndexError. -/
theorem pyIndexSquare_cases (i : Int) :
    (∃ s, pyIndexSquare i = .ok s) ∨ pyIndexSquare i = .error .idxErr := by
  unfold pyIndexSquare
  split_ifs <;> simp

/-- Helper: a segment serialization yields a string or IndexError —
never a division error. -/
theorem pgnSegment_cases (a : StyledArrow) (s e : Int) :
    (∃ str, pgnSegment a s e = .ok str) ∨ pgnSegment a s e = .error .idxErr := by
  unfold pgnSegment
  rcases pyIndexSquare_cases s with ⟨s1, h1⟩ | h1 <;>
    rcases pyIndexSquare_cases e with ⟨s2, h2⟩ | h2 <;>
    rw [h1, h2] <;>
    first
    | exact Or.inl ⟨_, rfl⟩
    | exact Or.inr rfl

/-- Helper: a lookup of a valid square index succeeds. -/
theorem pyIndexSquare_ok (i : Nat) (h : i < 64) :
    pyIndexSquare (i : Int) = .ok (squareName i) := by
  unfold pyIndexSquare
  rw [if_pos ⟨Int.natCast_nonneg i, by omega⟩]
  simp

/-- Helper: a lookup outside Python list-index range raises IndexError. -/
theorem pyIndexSquare_err (i : Int) (h : i < -64 ∨ 64 ≤ i) :
    pyIndexSquare i = .error .idxErr := by
  unfold pyIndexSquare
  rw [if_neg (by omega), if_neg (by omega)]

/-- Helper: a lookup inside Python list-index range — negative indices
from -64 to -1 included, which wrap — succeeds. -/
theorem pyIndexSquare_ok_range (i : Int) (h1 : -64 ≤ i) (h2 : i < 64) :
    ∃ s, pyIndexSquare i = .ok s := by
  unfold pyIndexSquare
  split_ifs with ha hb
  · exact ⟨_, rfl⟩
  · exact ⟨_, rfl⟩
  · exfalso; omega

/-- Helper: a segment with two successful lookups. -/
theorem pgnSegment_ok (a : StyledArrow) (s e : Int) (n1 n2 : String)
    (h1 : pyIndexSquare s = .ok n1) (h2 : pyIndexSquare e = .ok n2) :
    pgnSegment a s e = .ok (pgnColor a ++ n1 ++ n2) := by
  unfold pgnSegment
  rw [h1, h2]
  rfl

/-- Helper: a segment whose end-square lookup raises IndexError. -/
theorem pgnSegment_err_snd (a : StyledArrow) (s e : Int) (n1 : String)
    (h1 : pyIndexSquare s = .ok n1) (h2 : pyIndexSquare e = .error .idxErr) :
    pgnSegment a s e = .error .idxErr := by
  unfold pgnSegment
  rw [h1, h2]
  rfl

/-- Helper: the knight-branch expression when the intermediate lookup
raises IndexError. -/
theorem two_seg_err (a : StyledArrow) (t mid h : Int) (n1 : String)
    (h1 : pyIndexSquare t = .ok n1) (h2 : pyIndexSquare mid = .error .idxErr) :
    (do
      let s1 ← pgnSegment a t mid
      let s2 ← pgnSegment a mid h
      Except.ok (s1 ++ s2) : Except PgnErr String) = .error .idxErr := by
  rw [pgnSegment_err_snd a t mid n1 h1 h2]
  rfl

/-- Helper: the knight-branch expression when all three lookups
succeed. -/
theorem two_seg_ok (a : StyledArrow) (t mid h : Int) (n1 n2 n3 : String)
    (h1 : pyIndexSquare t = .ok n1) (h2 : pyIndexSquare mid = .ok n2)
    (h3 : pyIndexSquare h = .ok n3) :
    (do
      let s1 ← pgnSegment a t mid
      let s2 ← pgnSegment a mid h
      Except.ok (s1 ++ s2) : Except PgnErr String)
      = .ok ((pgnColor a ++ n1 ++ n2) ++ (pgnColor a ++ n2 ++ n3)) := by
  rw [pgnSegment_ok a t mid n1 n2 h1 h2, pgnSegment_ok a mid h n2 n3 h2 h3]
  rfl

/-- C7 counterexample: the arrow a1 to c3 is not knight-shaped (both
axes differ by 2), yet `pgn` does not return the single color-prefixed
segment `Ga1c3` — it returns two concatenated segments; and the
knight-shaped arrow a7 to c8 does not serialize as two segments at all:
its computed intermediate square index 66 is out of range, raising
IndexError. -/
theorem pgn_shape_cex :
    (¬ KnightShaped { tail := 0, head := 18, color := "green" }
      ∧ StyledArrow.pgn { tail := 0, head := 18, color := "green" } = .ok "Ga1c3Gc3c3"
      ∧ pgnSegment { tail := 0, head := 18, color := "green" } 0 18 = .ok "Ga1c3"
      ∧ ("Ga1c3Gc3c3" : String) ≠ "Ga1c3")
    ∧ (KnightShaped { tail := 48, head := 58, color := "green" }
      ∧ StyledArrow.pgn { tail := 48, head := 58, color := "green" } = .error .idxErr) :=
  ⟨⟨by decide, rfl, rfl, by decide⟩, by decide, rfl⟩

/-- C7 (amended): for arrows between valid squares, the knight branch
either raises IndexError — exactly when the computed intermediate index
`interSquare` falls outside the Python list-index range [-64, 63] — or
serializes as the two concatenated segments routed through that
computed intermediate index (negative in-range indices wrap to the end
of the square-name table under Python indexing, e.g. b3 to a1 routes
through h8); and an annotation serializes as the single color-prefixed
start/end segment exactly when neither its rank delta nor its file
delta has absolute value 2. -/
theorem pgn_shape_spec (a : StyledArrow) (ht : a.tail < 64) (hh : a.head < 64) :
    (KnightShaped a → (64 ≤ interSquare a ∨ interSquare a < -64) →
        a.pgn = .error .idxErr)
    ∧ (KnightShaped a → -64 ≤ interSquare a → interSquare a < 64 →
        ∃ s1 s2, pgnSegment a a.tail (interSquare a) = .ok s1
          ∧ pgnSegment a (interSquare a) a.head = .ok s2
          ∧ a.pgn = .ok (s1 ++ s2))
    ∧ ((((a.tail / 8 : Nat) : Int) - ((a.head / 8 : Nat) : Int)).natAbs ≠ 2 →
        (((a.tail % 8 : Nat) : Int) - ((a.head % 8 : Nat) : Int)).natAbs ≠ 2 →
        a.pgn = pgnSegment a a.tail a.head) := by
  refine ⟨?_, ?_, ?_⟩
  · intro hk hrange
    unfold KnightShaped at hk
    simp only [interSquare] at hrange
    simp only [StyledArrow.pgn]
    split_ifs with h1 h2 h3
    · exfalso; omega
    · exfalso; omega
    · exfalso; omega
    · exact two_seg_err a _ _ _ (squareName a.tail) (pyIndexSquare_ok a.tail ht)
        (pyIndexSquare_err _ (by omega))
  · intro hk hr1 hr2
    unfold KnightShaped at hk
    obtain ⟨n2, hn2⟩ := pyIndexSquare_ok_range (interSquare a) hr1 hr2
    simp only [StyledArrow.pgn]
    split_ifs with h1 h2 h3
    · exfalso; omega
    · exfalso; omega
    · exfalso; omega
    · exact ⟨pgnColor a ++ squareName a.tail ++ n2, pgnColor a ++ n2 ++ squareName a.head,
        pgnSegment_ok a _ _ _ _ (pyIndexSquare_ok a.tail ht) hn2,
        pgnSegment_ok a _ _ _ _ hn2 (pyIndexSquare_ok a.head hh),
        two_seg_ok a _ _ _ _ _ _ (pyIndexSquare_ok a.tail ht) hn2 (pyIndexSquare_ok a.head hh)⟩
  · intro hd hc
    simp only [StyledArrow.pgn]
    split_ifs with h1 h2 h3 <;> first | rfl | (exfalso; omega)

/-- C7 witness: the knight arrow a1 to c2 (intermediate c3, in range,
two segments), the knight arrow a7 to c8 (intermediate index 66, out of
range, IndexError), and the diagonal arrow a1 to b2 (single segment),
through the amended theorem. -/
theorem pgn_shape_spec_witness :
    (∃ s1 s2, pgnSegment arrKnight arrKnight.tail (interSquare arrKnight) = .ok s1
        ∧ pgnSegment arrKnight (interSquare arrKnight) arrKnight.head = .ok s2
        ∧ arrKnight.pgn = .ok (s1 ++ s2))
    ∧ StyledArrow.pgn { tail := 48, head := 58, color := "green" } = .error .idxErr
    ∧ arrSingle.pgn = pgnSegment arrSingle arrSingle.tail arrSingle.head :=
  ⟨(pgn_shape_spec arrKnight (by decide) (by decide)).2.1 (by decide) (by decide) (by decide),
   (pgn_shape_spec { tail := 48, head := 58, color := "green" } (by decide) (by decide)).1
     (by decide) (by decide),
   (pgn_shape_spec arrSingle (by decide) (by decide)).2.2 (by decide) (by decide)⟩

/-! ## C4: the video-level hash -/

/-- Helper: one compression round preserves the state length. -/
theorem compressStep_length (st : List Nat) (kw : Nat × Nat) :
    (compressStep st kw).length = st.length := by
  unfold compressStep
  split <;> simp

/-- Helper: the round fold preserves the state length. -/
theorem foldl_compressStep_length (l : List (Nat × Nat)) (st : List Nat) :
    (l.foldl compressStep st).length = st.length := by
  induction l generalizing st with
  | nil => rfl
  | cons kw t ih => rw [List.foldl_cons, ih, compressStep_length]

/-- Helper: block compression preserves the hash-state length. -/
theorem compressBlock_length (h bl : List Nat) :
    (compressBlock h bl).length = h.length := by
  unfold compressBlock
  simp [foldl_compressStep_length]

/-- Helper: the block fold preserves the hash-state length. -/
theorem foldl_compressBlock_length (bs : List (List Nat)) (h : List Nat) :
    (bs.foldl compressBlock h).length = h.length := by
  induction bs generalizing h with
  | nil => rfl
  | cons b t ih => rw [List.foldl_cons, ih, compressBlock_length]

/-- Helper: a SHA-256 digest consists of eight words. -/
theorem sha256Words_length (msg : List Nat) : (sha256Words msg).length = 8 :=
  (foldl_compressBlock_length _ _).trans rfl

/-- Helper: each digest word prints as eight hex characters. -/
theorem wordHex_length (n : Nat) : (wordHex n).length = 8 := by
  simp [wordHex, String.length]

/-- Helper: the length of a fold of string concatenations. -/
theorem foldl_append_length (l : List String) (acc : String) :
    (l.foldl (· ++ ·) acc).length = acc.length + (l.map String.length).sum := by
  induction l generalizing acc with
  | nil => simp
  | cons s t ih =>
    rw [List.foldl_cons, ih]
    simp [String.length_append]
    omega

/-- Helper: a SHA-256 hex digest is 64 characters long. -/
theorem sha256hex_length (msg : List Nat) : (sha256hex msg).length = 64 := by
  unfold sha256hex String.join
  rw [foldl_append_length]
  have h8 : ((sha256Words msg).map wordHex).map String.length
      = (sha256Words msg).map fun _ => 8 := by
    rw [List.map_map]
    exact List.map_congr_left fun w _ => wordHex_length w
  rw [h8]
  have h9 : ((sha256Words msg).map fun _ => 8).sum = 8 * (sha256Words msg).length := by
    induction sha256Words msg with
    | nil => rfl
    | cons x t ih => simp [ih]; omega
  rw [h9, sha256Words_length]
  decide

/-- Helper: every scene hash is 64 characters long. -/
theorem scene_video_hash_length (s : Scene) : s.video_hash.length = 64 :=
  sha256hex_length _

/-- Helper: the cons-cons unfolding of `pyJoin`. -/
theorem pyJoin_cons_cons (sep s u : String) (v : List String) :
    pyJoin sep (s :: u :: v) = s ++ sep ++ pyJoin sep (u :: v) := rfl

/-- Helper: the dash-join is injective on lists of 64-character strings,
so the video hash key determines the scene-hash sequence. -/
theorem pyJoin_inj : ∀ l1 l2 : List String, (∀ s ∈ l1, s.length = 64) →
    (∀ s ∈ l2, s.length = 64) → pyJoin "-" l1 = pyJoin "-" l2 → l1 = l2 := by
  intro l1
  induction l1 with
  | nil =>
    intro l2 _ h2 he
    cases l2 with
    | nil => rfl
    | cons s t =>
      exfalso
      have hs : s.length = 64 := h2 s (List.mem_cons_self _ _)
      have hlen := congrArg String.length he
      have h0 : ("" : String).length = 0 := rfl
      have h1d : ("-" : String).length = 1 := rfl
      cases t with
      | nil =>
        simp only [pyJoin] at hlen
        omega
      | cons u v =>
        simp only [pyJoin] at hlen
        rw [String.length_append, String.length_append] at hlen
        omega
  | cons s1 t1 ih =>
    intro l2 h1 h2 he
    cases l2 with
    | nil =>
      exfalso
      have hs : s1.length = 64 := h1 s1 (List.mem_cons_self _ _)
      have hlen := congrArg String.length he
      have h0 : ("" : String).length = 0 := rfl
      have h1d : ("-" : String).length = 1 := rfl
      cases t1 with
      | nil =>
        simp only [pyJoin] at hlen
        omega
      | cons u v =>
        simp only [pyJoin] at hlen
        rw [String.length_append, String.length_append] at hlen
        omega
    | cons s2 t2 =>
      have ha : s1.length = 64 := h1 s1 (List.mem_cons_self _ _)
      have hb : s2.length = 64 := h2 s2 (List.mem_cons_self _ _)
      have h1d : ("-" : String).length = 1 := rfl
      cases t1 with
      | nil =>
        cases t2 with
        | nil =>
          simp only [pyJoin] at he
          rw [he]
        | cons u v =>
          exfalso
          have hlen := congrArg String.length he
          simp only [pyJoin] at hlen
          rw [String.length_append, String.length_append] at hlen
          omega
      | cons a1 b1 =>
        cases t2 with
        | nil =>
          exfalso
          have hlen := congrArg String.length he
          simp only [pyJoin] at hlen
          rw [String.length_append, String.length_append] at hlen
          omega
        | cons a2 b2 =>
          rw [pyJoin_cons_cons, pyJoin_cons_cons] at he
          have hd := congrArg String.data he
          rw [String.data_append, String.data_append, String.data_append, String.data_append,
            List.append_assoc, List.append_assoc] at hd
          have hl12 : s1.data.length = s2.data.length := by
            have e1 : s1.data.length = 64 := ha
            have e2 : s2.data.length = 64 := hb
            omega
          obtain ⟨hs, ht⟩ := List.append_inj hd hl12
          have hJ : pyJoin "-" (a1 :: b1) = pyJoin "-" (a2 :: b2) := by
            apply String.ext
            have ht2 : ('-' : Char) :: (pyJoin "-" (a1 :: b1)).data
                = '-' :: (pyJoin "-" (a2 :: b2)).data := ht
            simpa using ht2
          have htl : a1 :: b1 = a2 :: b2 :=
            ih (a2 :: b2) (fun s hs2 => h1 s (List.mem_cons_of_mem _ hs2))
              (fun s hs2 => h2 s (List.mem_cons_of_mem _ hs2)) hJ
          rw [String.ext hs, htl]

set_option maxRecDepth 200000 in
set_option maxHeartbeats 2000000 in
/-- C4: the `PuzzleVideo` hash is a deterministic function solely of the
ordered sequence of scene hashes (digest of the in-order dash-joined
concatenation); conversely the digest input determines the scene-hash
sequence (the join is injective on 64-character hashes), and on concrete
instances appending a scene, removing a scene, or reordering the scenes
each change the hash itself. -/
theorem puzzle_video_hash_spec :
    (∀ v1 v2 : PuzzleVideo, v1.scenes.map Scene.video_hash = v2.scenes.map Scene.video_hash →
        v1.video_hash = v2.video_hash)
    ∧ (∀ v1 v2 : PuzzleVideo, videoHashKey v1 = videoHashKey v2 →
        v1.scenes.map Scene.video_hash = v2.scenes.map Scene.video_hash)
    ∧ pvTwo.video_hash ≠ pvOne.video_hash
    ∧ pvTwo.video_hash ≠ pvSwap.video_hash
    ∧ pvOne.video_hash ≠ pvSwap.video_hash := by
  refine ⟨?_, ?_, by decide, by decide, by decide⟩
  · intro v1 v2 h
    unfold PuzzleVideo.video_hash videoHashKey
    rw [h]
  · intro v1 v2 h
    refine pyJoin_inj _ _ ?_ ?_ h
    · intro s hs
      obtain ⟨sc, _, rfl⟩ := List.mem_map.mp hs
      exact scene_video_hash_length sc
    · intro s hs
      obtain ⟨sc, _, rfl⟩ := List.mem_map.mp hs
      exact scene_video_hash_length sc

/-- C4 witness: the determinism direction and the key-injectivity
direction applied at concrete puzzle videos. -/
theorem puzzle_video_hash_spec_witness :
    pvOne.video_hash = pvOne.video_hash
      ∧ pvTwo.scenes.map Scene.video_hash = pvTwo.scenes.map Scene.video_hash :=
  ⟨puzzle_video_hash_spec.1 pvOne pvOne rfl, puzzle_video_hash_spec.2.1 pvTwo pvTwo rfl⟩

end Zugzwang
